import Mathlib

/-!
Verification of the training harness in
src/src/baselines/generative/bidaf/mrcqa/train.py and of the embedding
utility in src/src/lang_models/models/Glove.py, against the natural
language specification.

Numerical values (model weights, optimizer blobs, embedding components)
are modelled as integers: none of the properties below depends on the
arithmetic of the underlying floating point numbers, only on which
values flow where.  Helper modules of the repository that are absent
from the snapshot (dataset.py, checkpointing.py, bidaf.py) are modelled
from the specification; each such definition carries a doc comment
saying so.
-/

namespace MrcQa

/-- One embedding vector / row of a weight matrix. -/
abbrev Vec := List Int

/-- A snapshot of the model parameters. -/
abbrev Weights := List Int

/-- The serialized internal state of the optimizer (the contents of the
checkpoint.opt file). -/
abbrev OptState := List Int

/-- The pair of vocabularies (token map and character map) that
train.py keeps as the mutable dicts token_to_id and char_to_id; we
track the token lists, whose lengths are the dict sizes compared by the
asserts in reload_state. -/
structure Vocabs where
  tokens : List String
  chars : List String
deriving DecidableEq, Repr

/-- The h5py checkpoint file: nested groups for the vocabulary (token
list and character list) and for the training state (epoch counter and
model weights).  The training group is absent until the first call to
checkpointing.checkpoint, hence the Option. -/
structure CheckpointFile where
  vocabTokens : List String
  vocabChars : List String
  training : Option (Nat × Weights)
deriving DecidableEq, Repr

/-- The experiment folder on disk: the checkpoint file and the separate
checkpoint.opt optimizer state file, either of which may be absent. -/
structure ExpFolder where
  checkpointFile : Option CheckpointFile
  optFile : Option OptState
deriving DecidableEq, Repr

/-- The optimizer object: optim.Adam over the model parameters, whose
internal history is empty at construction and replaced only by an
explicit load_state_dict call. -/
structure Optimizer where
  history : Option OptState
deriving DecidableEq, Repr

/-- The in-memory training state evolved by the epoch loop: the model
weights and the optimizer internal state. -/
structure TrainState where
  weights : Weights
  opt : OptState
deriving DecidableEq, Repr

/-- try_to_resume from train.py (lines 30-44).  With the force restart
flag it returns (None, None, 0) without looking at the folder.
Otherwise, when the checkpoint file exists it reads the stored epoch
counter (raising if the training group is absent) and returns the open
checkpoint, the optimizer state when the checkpoint.opt file exists
(None when torch.load raises FileNotFoundError), and stored epoch + 1;
when no checkpoint file exists it returns (None, None, 0). -/
def try_to_resume (force_restart : Bool) (exp_folder : ExpFolder) :
    Except String (Option CheckpointFile × Option OptState × Nat) :=
  if force_restart then
    .ok (none, none, 0)
  else
    match exp_folder.checkpointFile with
    | some checkpoint =>
      match checkpoint.training with
      | some (epoch, _) => .ok (some checkpoint, exp_folder.optFile, epoch + 1)
      | none => .error "KeyError: training/epoch"
    | none => .ok (none, none, 0)

/-- get_optimizer from train.py (lines 79-95): construct optim.Adam with
empty history, then call load_state_dict exactly when the given state is
not None. -/
def get_optimizer (state : Option OptState) : Optimizer :=
  let optimizer : Optimizer := { history := none }
  match state with
  | some s => { optimizer with history := some s }
  | none => optimizer

/-- Modelled from the spec: BidafModel.from_checkpoint (bidaf.py is
absent from the snapshot).  RESUMING loads the model and the vocabulary
from the last checkpoint; reading the model weights fails when the
training group was never written. -/
def from_checkpoint (checkpoint : CheckpointFile) :
    Except String (Weights × List String × List String) :=
  match checkpoint.training with
  | some (_, weights) => .ok (weights, checkpoint.vocabTokens, checkpoint.vocabChars)
  | none => .error "KeyError: training/model"

/-- The state reconstructed by reload_state. -/
structure ReloadedState where
  model : Weights
  vocabs : Vocabs
  optimizer : Optimizer
deriving DecidableEq, Repr

/-- reload_state from train.py (lines 47-76): load model and vocabulary
from the checkpoint, build the optimizer from the optional training
state, record the two vocabulary sizes, re-tokenize the dataset against
the loaded vocabulary (tokenize_data lives in the absent dataset.py, so
its effect on the vocabularies is a parameter here), then assert that
both vocabulary sizes are unchanged. -/
def reload_state (checkpoint : CheckpointFile) (training_state : Option OptState)
    (tokenize_data : Vocabs → Vocabs) : Except String ReloadedState :=
  match from_checkpoint checkpoint with
  | .error e => .error e
  | .ok (model, id_to_token, id_to_char) =>
    let optimizer := get_optimizer training_state
    let vocabs : Vocabs := { tokens := id_to_token, chars := id_to_char }
    let len_tok_voc := vocabs.tokens.length
    let len_char_voc := vocabs.chars.length
    let vocabs := tokenize_data vocabs
    if vocabs.tokens.length = len_tok_voc then
      if vocabs.chars.length = len_char_voc then
        .ok { model := model, vocabs := vocabs, optimizer := optimizer }
      else
        .error "AssertionError: len(char_to_id) == len_char_voc"
    else
      .error "AssertionError: len(token_to_id) == len_tok_voc"

/-- Modelled from the spec: EpochGen (dataset.py is absent from the
snapshot), the batch generator driven by get_loader in train.py.  Each
epoch, the shuffled example collection is sliced into consecutive
groups of the configured batch size, the last group possibly shorter.
This function performs the slicing; the shuffle is a permutation
hypothesis in the theorems.  A zero batch size (which the real
generator is never configured with: the default is 32) yields no
batches. -/
def sliceBatches {α : Type} : Nat → List α → List (List α)
  | _, [] => []
  | 0, _ :: _ => []
  | b + 1, x :: xs => (x :: xs).take (b + 1) :: sliceBatches (b + 1) (xs.drop b)
termination_by _ l => l.length
decreasing_by
  simp only [List.length_drop, List.length_cons]
  omega

/-- get_loader from train.py (lines 98-103): wrap the tokenized data in
an EpochGen with the configured batch size (default 32) and shuffling
on.  We record the parameters the generator is built with. -/
def get_loader {α : Type} (data : List α) (batch_size : Nat) : List α × Nat :=
  (data, batch_size)

/-- Modelled from the spec: checkpointing.checkpoint (checkpointing.py
is absent from the snapshot).  After each full epoch, atomically
persist the post-epoch model weights and completed epoch number into
the open checkpoint file and the optimizer state into the
checkpoint.opt file; the persist is a single step of this model. -/
def checkpointing_checkpoint (model : Weights) (epoch : Nat) (optimizer : OptState)
    (checkpoint : CheckpointFile) (_exp_folder : ExpFolder) :
    CheckpointFile × ExpFolder :=
  let checkpoint := { checkpoint with training := some (epoch, model) }
  (checkpoint, { checkpointFile := some checkpoint, optFile := some optimizer })

/-- The epoch loop of main (train.py lines 239-247): for each epoch
number in the list, train for one epoch (the per-epoch effect of train
on the model and optimizer is the step parameter, since it is pure
framework computation) and then call checkpointing.checkpoint.  Returns
the final training state, the checkpoint file handle, the folder
contents, and the number of completed epochs. -/
def runEpochs (step : Nat → TrainState → TrainState) :
    List Nat → TrainState → CheckpointFile → ExpFolder →
    TrainState × CheckpointFile × ExpFolder × Nat
  | [], s, ck, fs => (s, ck, fs, 0)
  | e :: rest, s, ck, fs =>
    let s₁ := step e s
    let (ck₁, fs₁) := checkpointing_checkpoint s₁.weights e s₁.opt ck fs
    let (sf, ckf, fsf, n) := runEpochs step rest s₁ ck₁ fs₁
    (sf, ckf, fsf, n + 1)

/-- The epoch numbers the loop of main visits when training.epochs is
configured: range(epoch, train_for_epochs). -/
def epochRange (epoch train_for_epochs : Nat) : List Nat :=
  List.range' epoch (train_for_epochs - epoch)

/-- The optimizer state the epoch loop starts from: the loaded history
when load_state_dict was called, the empty Adam history otherwise. -/
def Optimizer.startState (o : Optimizer) : OptState :=
  o.history.getD []

/-- What a run of main produces in this model. -/
structure RunResult where
  finalState : TrainState
  vocabs : Vocabs
  folder : ExpFolder
  stepsRun : Nat
  startEpoch : Nat
deriving DecidableEq, Repr

/-- main from train.py (lines 181-249), after argument and config
parsing: decide resuming versus fresh via try_to_resume, build the
initial state by reload_state or init_state, on the fresh path create
the checkpoint file and persist the initial vocabulary (save_vocab,
modelled from the spec: the absent checkpointing.py writes the two
vocabulary groups of the fresh file), then run the epoch loop.  The
vocabulary built by init_state over the raw data starts from the
reserved id 0 entries (the tokenize_data effect on a fresh vocabulary
is the build parameter, dataset.py being absent); the fresh initial
model weights are the init_weights parameter. -/
def main_run (force_restart : Bool) (fs : ExpFolder)
    (tokenize_data : Vocabs → Vocabs) (build : Vocabs → Vocabs)
    (init_weights : Weights) (step : Nat → TrainState → TrainState)
    (train_for_epochs : Nat) : Except String RunResult :=
  match try_to_resume force_restart fs with
  | .error e => .error e
  | .ok (some checkpoint, training_state, epoch) =>
    match reload_state checkpoint training_state tokenize_data with
    | .error e => .error e
    | .ok rs =>
      let s₀ : TrainState := { weights := rs.model, opt := rs.optimizer.startState }
      let (sf, _, fsf, n) :=
        runEpochs step (epochRange epoch train_for_epochs) s₀ checkpoint fs
      .ok { finalState := sf, vocabs := rs.vocabs, folder := fsf,
            stepsRun := n, startEpoch := epoch }
  | .ok (none, _, epoch) =>
    let vocabs := build { tokens := [""], chars := [""] }
    let ck₀ : CheckpointFile :=
      { vocabTokens := vocabs.tokens, vocabChars := vocabs.chars, training := none }
    let fs₀ : ExpFolder := { fs with checkpointFile := some ck₀ }
    let optimizer := get_optimizer none
    let s₀ : TrainState := { weights := init_weights, opt := optimizer.startState }
    let (sf, _, fsf, n) :=
      runEpochs step (epochRange epoch train_for_epochs) s₀ ck₀ fs₀
    .ok { finalState := sf, vocabs := vocabs, folder := fsf,
          stepsRun := n, startEpoch := epoch }

/-- The mean and covariance statistics computed by
SymbolEmbSourceText.get_norm_stats over the loaded vectors (diagonal
covariance unless the covariance flag is set). -/
structure NormStats where
  mean : Vec
  cov : Vec
deriving DecidableEq, Repr

/-- The ambient nondeterminism of one process execution: whatever an
unseeded random source would be initialized from.  Two different runs
carry two different worlds. -/
structure World where
  entropy : Nat
deriving DecidableEq, Repr

/-- A numpy RandomState generator: a seed and a position in the stream
it deterministically generates. -/
structure Rng where
  seed : Nat
  counter : Nat
deriving DecidableEq, Repr

/-- np.random.RandomState(seed): the generator state is a function of
the seed alone, independent of the ambient world. -/
def np_RandomState (seed : Nat) : Rng :=
  { seed := seed, counter := 0 }

/-- An unseeded generator, for contrast: initialized from the ambient
entropy of the run.  train.py never uses one for the fallback vectors. -/
def np_RandomState_unseeded (w : World) : Rng :=
  { seed := w.entropy, counter := 0 }

/-- A linear congruential step, the concrete model of the pseudo-random
stream behind a RandomState. -/
def lcg (n : Nat) : Nat :=
  (n * 1103515245 + 12345) % 4294967296

/-- Modelled from the spec: one multivariate normal draw of
SymbolEmbSourceNorm (dataset.py is absent from the snapshot),
parameterized by the mean and covariance statistics and the generator;
the draw advances the generator by one. -/
def drawNorm (stats : NormStats) (rng : Rng) : Vec × Rng :=
  let sample := stats.mean.zipWith
    (fun m c => m + Int.ofNat (lcg (rng.seed + 2 * rng.counter) % (c.natAbs + 1)))
    stats.cov
  (sample, { rng with counter := rng.counter + 1 })

/-- Modelled from the spec: symbol_injection (dataset.py is absent from
the snapshot), as called by init_state (train.py lines 135-139).  Rows
of the initial embedding matrix are paired with their id and token; the
row of the reserved id (0 in the call) keeps its initial value, every
other row becomes the text-sourced vector when the token is in the
pre-trained source and a freshly drawn statistical fallback vector
otherwise.  Returns the new matrix and the final generator state. -/
def symbol_injection (rows : List (Nat × String × Vec)) (skip : Nat)
    (pre_trained : String → Option Vec) (stats : NormStats) (rng : Rng) :
    List Vec × Rng :=
  match rows with
  | [] => ([], rng)
  | (id, tok, row₀) :: rest =>
    let (row, rng₁) :=
      if id = skip then (row₀, rng)
      else
        match pre_trained tok with
        | some v => (v, rng)
        | none => drawNorm stats rng
    let (rows', rngf) := symbol_injection rest skip pre_trained stats rng₁
    (row :: rows', rngf)

/-- The fallback-and-injection phase of init_state (train.py lines
125-139) as a function of the run: the generator is
np.random.RandomState(2), a constant seed, so the world of the run is
taken only to show the result does not depend on it. -/
def init_state_injection (_w : World) (rows : List (Nat × String × Vec))
    (pre_trained : String → Option Vec) (stats : NormStats) : List Vec :=
  let rng := np_RandomState 2
  (symbol_injection rows 0 pre_trained stats rng).1

end MrcQa

namespace GloveModel

/-- An embedding vector, components modelled as integers. -/
abbrev Vec := List Int

/-- The pretrained_glove dict: association list from word to vector. -/
abbrev GloveDict := List (String × Vec)

/-- Python dict membership and lookup; lookup on a missing key is what
raises KeyError in the source. -/
def dictFind (g : GloveDict) (k : String) : Option Vec :=
  (g.find? (fun p => p.1 = k)).map (fun p => p.2)

/-- numpy elementwise addition of two rows: defined when the shapes
agree, a ValueError otherwise. -/
def addVec (a b : Vec) : Option Vec :=
  if a.length = b.length then some (a.zipWith (· + ·) b) else none

/-- np.sum(temp, axis=0) over the list of found vectors: the scalar 0.0
when the list is empty (signalled by none), the elementwise sum when
all shapes agree, a ValueError (error) otherwise. -/
def sumVecs : List Vec → Except String (Option Vec)
  | [] => .ok none
  | v :: rest =>
    match sumVecs rest with
    | .error e => .error e
    | .ok none => .ok (some v)
    | .ok (some w) =>
      match addVec v w with
      | some u => .ok (some u)
      | none => .error "ValueError: operands could not be broadcast"

/-- A whitespace character for Python str.split with no argument. -/
def isPySpace (c : Char) : Bool :=
  c = ' ' || c = '\t' || c = '\n' || c = '\r'

/-- Splitting a character list on whitespace runs, accumulating the
current word reversed. -/
def splitWsAux : List Char → List Char → List (List Char)
  | [], acc => if acc.isEmpty then [] else [acc.reverse]
  | c :: cs, acc =>
    if isPySpace c then
      if acc.isEmpty then splitWsAux cs []
      else acc.reverse :: splitWsAux cs []
    else splitWsAux cs (c :: acc)

/-- Python str.split with no argument: split on whitespace runs,
dropping empty pieces. -/
def pySplit (s : String) : List String :=
  (splitWsAux s.data []).map String.mk

/-- Glove.glove_embedding_one_string (Glove.py lines 31-36): split the
string into words, strip punctuation from each (the re.sub cleaning
pass is the clean parameter; the property proved below holds for every
cleaning function), look up every cleaned word that is a key of the
dict, and sum the found vectors; the sum of no vectors is the scalar
0.0 (none). -/
def glove_embedding_one_string (clean : String → String) (s : String)
    (pretrained_glove : GloveDict) : Except String (Option Vec) :=
  let words := pySplit s
  let new_words := words.map clean
  let temp := new_words.filterMap (fun w => dictFind pretrained_glove w)
  sumVecs temp

/-- Assigning a row of np.zeros((n, l)): assigning the scalar 0.0
broadcasts to a zero row of width l, assigning a vector requires its
length to equal l. -/
def assignRow (l : Nat) : Option Vec → Except String Vec
  | none => .ok (List.replicate l 0)
  | some v => if v.length = l then .ok v else .error "ValueError: could not broadcast"

/-- One iteration of the filling loop of Glove.embedding: compute the
embedding of one string and assign it to row t of the width-l zero
matrix. -/
def embedRow (clean : String → String) (pretrained_glove : GloveDict)
    (l : Nat) (s : String) : Except String Vec :=
  match glove_embedding_one_string clean s pretrained_glove with
  | .error e => .error e
  | .ok row => assignRow l row

/-- The filling loop of Glove.embedding: rows are assigned in list
order and the first raised error aborts the loop. -/
def embedRows (clean : String → String) (pretrained_glove : GloveDict)
    (l : Nat) : List String → Except String (List Vec)
  | [] => .ok []
  | s :: rest =>
    match embedRow clean pretrained_glove l s with
    | .error e => .error e
    | .ok v =>
      match embedRows clean pretrained_glove l rest with
      | .error e => .error e
      | .ok vs => .ok (v :: vs)

/-- Glove.embedding (Glove.py lines 39-46): read the width from
pretrained_glove applied to the literal key of the one-letter word a
(a KeyError when absent, raised before any list element is processed),
allocate np.zeros((n, l)), then fill row t with the embedding of the
t-th string. -/
def embedding (clean : String → String) (list : List String)
    (pretrained_glove : GloveDict) : Except String (List Vec) :=
  match dictFind pretrained_glove "a" with
  | none => .error "KeyError: a"
  | some va => embedRows clean pretrained_glove va.length list

end GloveModel

namespace MrcQa

theorem range'_take (s n k : Nat) (h : k ≤ n) :
    (List.range' s n).take k = List.range' s k := by
  induction k generalizing s n with
  | zero => simp
  | succ j ih =>
    cases n with
    | zero => omega
    | succ m =>
      rw [List.range'_succ s m 1, List.take_succ_cons, List.range'_succ s j 1]
      congr 1
      exact ih (s + 1) m (by omega)

theorem range'_head (s : Nat) {n : Nat} (h : 0 < n) :
    (List.range' s n).head? = some s := by
  cases n with
  | zero => omega
  | succ m => rw [List.range'_succ s m 1]; rfl

theorem range'_getLast (s : Nat) {n : Nat} (h : 0 < n) :
    (List.range' s n).getLast? = some (s + n - 1) := by
  rw [List.getLast?_range']
  simp [Nat.pos_iff_ne_zero.mp h]

theorem runEpochs_nil (step : Nat → TrainState → TrainState) (s : TrainState)
    (ck : CheckpointFile) (fs : ExpFolder) :
    runEpochs step [] s ck fs = (s, ck, fs, 0) := rfl

theorem runEpochs_cons (step : Nat → TrainState → TrainState) (e : Nat)
    (rest : List Nat) (s : TrainState) (ck : CheckpointFile) (fs : ExpFolder) :
    runEpochs step (e :: rest) s ck fs =
      ((runEpochs step rest (step e s)
          { ck with training := some (e, (step e s).weights) }
          { checkpointFile := some { ck with training := some (e, (step e s).weights) },
            optFile := some (step e s).opt }).1,
       (runEpochs step rest (step e s)
          { ck with training := some (e, (step e s).weights) }
          { checkpointFile := some { ck with training := some (e, (step e s).weights) },
            optFile := some (step e s).opt }).2.1,
       (runEpochs step rest (step e s)
          { ck with training := some (e, (step e s).weights) }
          { checkpointFile := some { ck with training := some (e, (step e s).weights) },
            optFile := some (step e s).opt }).2.2.1,
       (runEpochs step rest (step e s)
          { ck with training := some (e, (step e s).weights) }
          { checkpointFile := some { ck with training := some (e, (step e s).weights) },
            optFile := some (step e s).opt }).2.2.2 + 1) := by
  rcases hr : runEpochs step rest (step e s)
      { ck with training := some (e, (step e s).weights) }
      { checkpointFile := some { ck with training := some (e, (step e s).weights) },
        optFile := some (step e s).opt } with ⟨sf, ckf, fsf, n⟩
  simp [runEpochs, checkpointing_checkpoint, hr]

theorem runEpochs_spec (step : Nat → TrainState → TrainState) :
    ∀ (es : List Nat) (s : TrainState) (ck : CheckpointFile) (fs : ExpFolder)
      (e : Nat), es.getLast? = some e →
      runEpochs step es s ck fs =
        (es.foldl (fun t i => step i t) s,
         { vocabTokens := ck.vocabTokens, vocabChars := ck.vocabChars,
           training := some (e, (es.foldl (fun t i => step i t) s).weights) },
         { checkpointFile := some
             { vocabTokens := ck.vocabTokens, vocabChars := ck.vocabChars,
               training := some (e, (es.foldl (fun t i => step i t) s).weights) },
           optFile := some (es.foldl (fun t i => step i t) s).opt },
         es.length)
  | [], _, _, _, _, h => by simp at h
  | [e₀], s, ck, fs, e, h => by
    simp only [List.getLast?_singleton, Option.some.injEq] at h
    subst h
    simp [runEpochs, checkpointing_checkpoint]
  | e₀ :: r :: rs, s, ck, fs, e, h => by
    have hlast : (r :: rs).getLast? = some e := by
      rwa [List.getLast?_cons_cons] at h
    have ih := runEpochs_spec step (r :: rs) (step e₀ s)
      { ck with training := some (e₀, (step e₀ s).weights) }
      { checkpointFile := some { ck with training := some (e₀, (step e₀ s).weights) },
        optFile := some (step e₀ s).opt } e hlast
    rw [runEpochs_cons, ih]
    simp [List.foldl_cons]

/-- C1: on a resume without the force restart flag from an existing
checkpoint storing epoch e, try_to_resume returns epoch e + 1 and the
epoch loop range(epoch, train_for_epochs) starts at e + 1; moreover a
checkpoint folder produced by completing epochs 0..k-1 stores the last
completed epoch k - 1, so try_to_resume yields exactly k there. -/
theorem resume_starts_after_stored_epoch (fs : ExpFolder) (cp : CheckpointFile)
    (e : Nat) (w : Weights) (total : Nat)
    (hck : fs.checkpointFile = some cp) (htr : cp.training = some (e, w))
    (htot : e + 1 < total) :
    try_to_resume false fs = .ok (some cp, fs.optFile, e + 1) ∧
    (epochRange (e + 1) total).head? = some (e + 1) ∧
    (∀ (step : Nat → TrainState → TrainState) (s₀ : TrainState)
       (ck₀ : CheckpointFile) (fs₀ : ExpFolder) (k : Nat), 0 < k →
       (try_to_resume false
           (runEpochs step (List.range' 0 k) s₀ ck₀ fs₀).2.2.1).map
         (fun r => r.2.2) = .ok k) := by
  refine ⟨?_, ?_, ?_⟩
  · simp [try_to_resume, hck, htr]
  · exact range'_head (e + 1) (by simp [epochRange]; omega)
  · intro step s₀ ck₀ fs₀ k hk
    have hlast : (List.range' 0 k).getLast? = some (k - 1) := by
      simpa using range'_getLast 0 hk
    rw [runEpochs_spec step (List.range' 0 k) s₀ ck₀ fs₀ (k - 1) hlast]
    simp [try_to_resume, Except.map]
    omega

theorem resume_starts_after_stored_epoch_witness :
    try_to_resume false
        ⟨some ⟨["x"], ["y"], some (3, [5, 7])⟩, none⟩ =
      .ok (some ⟨["x"], ["y"], some (3, [5, 7])⟩, none, 4) ∧
    (epochRange 4 10).head? = some 4 ∧
    (try_to_resume false
        (runEpochs (fun _ t => t) (List.range' 0 2)
          ⟨[], []⟩ ⟨[], [], none⟩ ⟨none, none⟩).2.2.1).map
      (fun r => r.2.2) = .ok 2 := by
  have h := resume_starts_after_stored_epoch
    ⟨some ⟨["x"], ["y"], some (3, [5, 7])⟩, none⟩
    ⟨["x"], ["y"], some (3, [5, 7])⟩ 3 [5, 7] 10 rfl rfl (by decide)
  exact ⟨h.1, h.2.1,
    h.2.2 (fun _ t => t) ⟨[], []⟩ ⟨[], [], none⟩ ⟨none, none⟩ 2 (by decide)⟩

/-- C2: with the force restart flag, try_to_resume returns
(None, None, 0) without looking at the folder, main takes the FRESH
path whose outcome is identical to running on a folder with no
checkpoint file at all, the run starts at epoch 0, and the vocabulary
is the one built from scratch from the raw data starting at the
reserved id 0 entries, not the one stored in any existing checkpoint. -/
theorem force_restart_is_fresh (fs : ExpFolder) (tok build : Vocabs → Vocabs)
    (iw : Weights) (step : Nat → TrainState → TrainState) (total : Nat) :
    try_to_resume true fs = .ok (none, none, 0) ∧
    main_run true fs tok build iw step total =
      main_run true { fs with checkpointFile := none } tok build iw step total ∧
    ∃ r, main_run true fs tok build iw step total = .ok r ∧
      r.startEpoch = 0 ∧ r.vocabs = build { tokens := [""], chars := [""] } := by
  refine ⟨rfl, rfl, ?_⟩
  refine ⟨_, rfl, rfl, rfl⟩

/-- C3: when the checkpoint file exists but the checkpoint.opt file is
absent, try_to_resume succeeds with training state None and the
optimizer is built with empty history (load_state_dict skipped); when
the optimizer file is present, its state is loaded into the optimizer;
and the success of reload_state never depends on the training state. -/
theorem missing_optimizer_state_tolerated (fs : ExpFolder) (cp : CheckpointFile)
    (e : Nat) (w : Weights)
    (hck : fs.checkpointFile = some cp) (htr : cp.training = some (e, w)) :
    (fs.optFile = none →
       try_to_resume false fs = .ok (some cp, none, e + 1) ∧
       get_optimizer none = { history := none }) ∧
    (∀ s, fs.optFile = some s →
       try_to_resume false fs = .ok (some cp, some s, e + 1) ∧
       get_optimizer (some s) = { history := some s }) ∧
    (∀ (tok : Vocabs → Vocabs) (ts ts' : Option OptState),
       (reload_state cp ts tok).isOk = (reload_state cp ts' tok).isOk) := by
  refine ⟨?_, ?_, ?_⟩
  · intro hopt
    constructor
    · simp [try_to_resume, hck, htr, hopt]
    · rfl
  · intro s hopt
    constructor
    · simp [try_to_resume, hck, htr, hopt]
    · rfl
  · intro tok ts ts'
    simp only [reload_state, from_checkpoint, htr]
    by_cases h₁ :
        (tok ⟨cp.vocabTokens, cp.vocabChars⟩).tokens.length = cp.vocabTokens.length
    · by_cases h₂ :
          (tok ⟨cp.vocabTokens, cp.vocabChars⟩).chars.length = cp.vocabChars.length
      · simp [h₁, h₂, Except.toBool]
      · simp [h₁, h₂]
    · simp [h₁]

theorem missing_optimizer_state_tolerated_witness :
    (try_to_resume false ⟨some ⟨["x"], [], some (0, [])⟩, none⟩ =
       .ok (some ⟨["x"], [], some (0, [])⟩, none, 1) ∧
     get_optimizer none = { history := none }) ∧
    (reload_state ⟨["x"], [], some (0, [])⟩ none id).isOk =
      (reload_state ⟨["x"], [], some (0, [])⟩ (some [9]) id).isOk := by
  have h := missing_optimizer_state_tolerated
    ⟨some ⟨["x"], [], some (0, [])⟩, none⟩
    ⟨["x"], [], some (0, [])⟩ 0 [] rfl rfl
  exact ⟨h.1 rfl, h.2.2 id none (some [9])⟩

/-- C4: reload_state returns normally if and only if both vocabulary
sizes are unchanged by the re-tokenization of the dataset against the
loaded vocabulary; in particular, when tokenizing with a pre-existing
vocabulary never changes the vocabulary sizes, the assertions never
fire. -/
theorem vocab_stability_assertions (cp : CheckpointFile) (ts : Option OptState)
    (tok : Vocabs → Vocabs) (e : Nat) (w : Weights)
    (htr : cp.training = some (e, w)) :
    ((∃ rs, reload_state cp ts tok = .ok rs) ↔
      ((tok ⟨cp.vocabTokens, cp.vocabChars⟩).tokens.length = cp.vocabTokens.length ∧
       (tok ⟨cp.vocabTokens, cp.vocabChars⟩).chars.length = cp.vocabChars.length)) ∧
    ((∀ v, (tok v).tokens.length = v.tokens.length ∧
           (tok v).chars.length = v.chars.length) →
      ∃ rs, reload_state cp ts tok = .ok rs) := by
  have hmain : (∃ rs, reload_state cp ts tok = .ok rs) ↔
      ((tok ⟨cp.vocabTokens, cp.vocabChars⟩).tokens.length = cp.vocabTokens.length ∧
       (tok ⟨cp.vocabTokens, cp.vocabChars⟩).chars.length = cp.vocabChars.length) := by
    simp only [reload_state, from_checkpoint, htr]
    by_cases h₁ :
        (tok ⟨cp.vocabTokens, cp.vocabChars⟩).tokens.length = cp.vocabTokens.length
    · by_cases h₂ :
          (tok ⟨cp.vocabTokens, cp.vocabChars⟩).chars.length = cp.vocabChars.length
      · simp [h₁, h₂]
      · simp [h₁, h₂]
    · simp [h₁]
  refine ⟨hmain, fun hpres => hmain.mpr ⟨?_, ?_⟩⟩
  · exact (hpres ⟨cp.vocabTokens, cp.vocabChars⟩).1
  · exact (hpres ⟨cp.vocabTokens, cp.vocabChars⟩).2

theorem sliceBatches_nil_iff {α : Type} (b : Nat) (l : List α) :
    sliceBatches (b + 1) l = [] ↔ l = [] := by
  cases l with
  | nil => simp [sliceBatches]
  | cons x xs => simp [sliceBatches]

theorem sliceBatches_flatten_aux {α : Type} (b : Nat) :
    ∀ (n : Nat) (l : List α), l.length ≤ n →
      (sliceBatches (b + 1) l).flatten = l := by
  intro n
  induction n with
  | zero =>
    intro l h
    have hl : l = [] := List.eq_nil_of_length_eq_zero (by omega)
    subst hl
    simp [sliceBatches]
  | succ m ih =>
    intro l h
    cases l with
    | nil => simp [sliceBatches]
    | cons x xs =>
      rw [sliceBatches, List.flatten_cons,
        ih (xs.drop b) (by simp at h ⊢; omega), List.take_succ_cons]
      simp [List.take_append_drop]

theorem sliceBatches_mem_aux {α : Type} (b : Nat) :
    ∀ (n : Nat) (l : List α), l.length ≤ n →
      ∀ batch ∈ sliceBatches (b + 1) l, batch.length ≤ b + 1 ∧ batch ≠ [] := by
  intro n
  induction n with
  | zero =>
    intro l h
    have hl : l = [] := List.eq_nil_of_length_eq_zero (by omega)
    subst hl
    simp [sliceBatches]
  | succ m ih =>
    intro l h
    cases l with
    | nil => simp [sliceBatches]
    | cons x xs =>
      rw [sliceBatches]
      intro batch hb
      rcases List.mem_cons.mp hb with hh | hh
      · subst hh
        refine ⟨by simp, by simp [List.take_succ_cons]⟩
      · exact ih (xs.drop b) (by simp at h ⊢; omega) batch hh

theorem sliceBatches_dropLast_aux {α : Type} (b : Nat) :
    ∀ (n : Nat) (l : List α), l.length ≤ n →
      ∀ batch ∈ (sliceBatches (b + 1) l).dropLast, batch.length = b + 1 := by
  intro n
  induction n with
  | zero =>
    intro l h
    have hl : l = [] := List.eq_nil_of_length_eq_zero (by omega)
    subst hl
    simp [sliceBatches]
  | succ m ih =>
    intro l h
    cases l with
    | nil => simp [sliceBatches]
    | cons x xs =>
      rw [sliceBatches]
      by_cases hrest : xs.drop b = []
      · rw [hrest]
        simp [sliceBatches]
      · intro batch hb
        have hne : sliceBatches (b + 1) (xs.drop b) ≠ [] := by
          rw [Ne, sliceBatches_nil_iff]
          exact hrest
        rw [List.dropLast_cons_of_ne_nil hne] at hb
        rcases List.mem_cons.mp hb with hh | hh
        · subst hh
          have hlen : b < xs.length := by
            by_contra hc
            exact hrest (List.drop_eq_nil_of_le (by omega))
          simp [List.length_take]
          omega
        · exact ih (xs.drop b) (by simp at h ⊢; omega) batch hh

theorem symbol_injection_cons (id : Nat) (tok : String) (row₀ : Vec)
    (rest : List (Nat × String × Vec)) (skip : Nat)
    (pre : String → Option Vec) (stats : NormStats) (rng : Rng) :
    symbol_injection ((id, tok, row₀) :: rest) skip pre stats rng =
      (if id = skip then
        ((row₀ :: (symbol_injection rest skip pre stats rng).1),
         (symbol_injection rest skip pre stats rng).2)
       else
         match pre tok with
         | some v =>
           ((v :: (symbol_injection rest skip pre stats rng).1),
            (symbol_injection rest skip pre stats rng).2)
         | none =>
           (((drawNorm stats rng).1 ::
              (symbol_injection rest skip pre stats
                (drawNorm stats rng).2).1),
            (symbol_injection rest skip pre stats (drawNorm stats rng).2).2)) := by
  by_cases h : id = skip
  · rcases hr : symbol_injection rest skip pre stats rng with ⟨a, c⟩
    simp [symbol_injection, h, hr]
  · cases hp : pre tok with
    | some v =>
      rcases hr : symbol_injection rest skip pre stats rng with ⟨a, c⟩
      simp [symbol_injection, h, hp, hr]
    | none =>
      rcases hd : drawNorm stats rng with ⟨v, rng₂⟩
      rcases hr : symbol_injection rest skip pre stats rng₂ with ⟨a, c⟩
      simp [symbol_injection, h, hp, hd, hr]

theorem symbol_injection_length (skip : Nat) (pre : String → Option Vec)
    (stats : NormStats) :
    ∀ (rows : List (Nat × String × Vec)) (rng : Rng),
      (symbol_injection rows skip pre stats rng).1.length = rows.length := by
  intro rows
  induction rows with
  | nil => intro rng; simp [symbol_injection]
  | cons r rest ih =>
    intro rng
    rcases r with ⟨id, tok, row₀⟩
    rw [symbol_injection_cons]
    by_cases h : id = skip
    · simp [h, ih]
    · cases hp : pre tok with
      | some v => simp [h, hp, ih]
      | none => simp [h, hp, ih]

theorem symbol_injection_get (skip : Nat) (pre : String → Option Vec)
    (stats : NormStats) :
    ∀ (rows : List (Nat × String × Vec)) (rng : Rng) (i : Nat)
      (id : Nat) (tok : String) (row₀ : Vec),
      rows[i]? = some (id, tok, row₀) →
      (id = skip →
        ((symbol_injection rows skip pre stats rng).1)[i]? = some row₀) ∧
      (∀ v, id ≠ skip → pre tok = some v →
        ((symbol_injection rows skip pre stats rng).1)[i]? = some v) ∧
      (id ≠ skip → pre tok = none →
        ∃ rng₂ : Rng,
          ((symbol_injection rows skip pre stats rng).1)[i]? =
            some (drawNorm stats rng₂).1) := by
  intro rows
  induction rows with
  | nil => intro rng i id tok row₀ h; simp at h
  | cons r rest ih =>
    intro rng i id tok row₀ h
    rcases r with ⟨id₁, tok₁, row₁⟩
    rw [symbol_injection_cons]
    cases i with
    | zero =>
      simp only [List.getElem?_cons_zero, Option.some.injEq] at h
      obtain ⟨rfl, rfl, rfl⟩ := h
      refine ⟨?_, ?_, ?_⟩
      · intro hskip
        simp [hskip]
      · intro v hns hp
        simp [hns, hp]
      · intro hns hp
        refine ⟨rng, ?_⟩
        simp [hns, hp]
    | succ j =>
      simp only [List.getElem?_cons_succ] at h
      by_cases hs : id₁ = skip
      · have := ih rng j id tok row₀ h
        simp only [hs, if_pos rfl] at *
        refine ⟨?_, ?_, ?_⟩
        · intro hskip
          simp [(this.1 hskip :)]
        · intro v hns hp
          simp [(this.2.1 v hns hp :)]
        · intro hns hp
          obtain ⟨r₂, hr₂⟩ := this.2.2 hns hp
          exact ⟨r₂, by simp [hr₂]⟩
      · cases hp₁ : pre tok₁ with
        | some v₁ =>
          have := ih rng j id tok row₀ h
          refine ⟨?_, ?_, ?_⟩
          · intro hskip
            simp [hs, hp₁, (this.1 hskip :)]
          · intro v hns hp
            simp [hs, hp₁, (this.2.1 v hns hp :)]
          · intro hns hp
            obtain ⟨r₂, hr₂⟩ := this.2.2 hns hp
            exact ⟨r₂, by simp [hs, hp₁, hr₂]⟩
        | none =>
          have := ih (drawNorm stats rng).2 j id tok row₀ h
          refine ⟨?_, ?_, ?_⟩
          · intro hskip
            simp [hs, hp₁, (this.1 hskip :)]
          · intro v hns hp
            simp [hs, hp₁, (this.2.1 v hns hp :)]
          · intro hns hp
            obtain ⟨r₂, hr₂⟩ := this.2.2 hns hp
            exact ⟨r₂, by simp [hs, hp₁, hr₂]⟩

theorem symbol_injection_all_present (skip : Nat) (pre : String → Option Vec)
    (stats : NormStats) :
    ∀ (rows : List (Nat × String × Vec)) (rng : Rng),
      (∀ r ∈ rows, r.1 ≠ skip → (pre r.2.1).isSome) →
      symbol_injection rows skip pre stats rng =
        (rows.map (fun r => if r.1 = skip then r.2.2 else (pre r.2.1).getD []),
         rng) := by
  intro rows
  induction rows with
  | nil => intro rng hall; simp [symbol_injection]
  | cons r rest ih =>
    intro rng hall
    rcases r with ⟨id, tok, row₀⟩
    rw [symbol_injection_cons]
    by_cases hs : id = skip
    · simp only [hs, if_pos rfl]
      rw [ih rng (fun q hq => hall q (List.mem_cons_of_mem _ hq))]
      simp
    · have hsome := hall (id, tok, row₀) (List.mem_cons_self _ _) hs
      cases hp : pre tok with
      | none => rw [hp] at hsome; simp at hsome
      | some v =>
        simp only [hs, if_neg hs, hp]
        rw [ih rng (fun q hq => hall q (List.mem_cons_of_mem _ hq))]
        simp [hs, hp]

/-- C6: for a positive batch size, one epoch of the batch generator
slices the shuffled collection into consecutive groups whose
concatenation is exactly the shuffled collection, so every example of
the original collection appears exactly as often in the batches of the
epoch as in the collection (exactly once when the collection has no
duplicates); every group except possibly the last has exactly the
configured size, and the last is nonempty and at most that size. -/
theorem batches_cover_each_example_once {α : Type} [DecidableEq α]
    (examples shuffled : List α) (bs : Nat) (hbs : 0 < bs)
    (hshuffle : shuffled.Perm examples) :
    (sliceBatches bs shuffled).flatten = shuffled ∧
    (∀ a : α, (sliceBatches bs shuffled).flatten.count a = examples.count a) ∧
    (∀ batch ∈ sliceBatches bs shuffled, batch.length ≤ bs ∧ batch ≠ []) ∧
    (∀ batch ∈ (sliceBatches bs shuffled).dropLast, batch.length = bs) := by
  obtain ⟨b, rfl⟩ : ∃ b, bs = b + 1 := ⟨bs - 1, by omega⟩
  have hflat := sliceBatches_flatten_aux b shuffled.length shuffled (le_refl _)
  refine ⟨hflat, ?_, ?_, ?_⟩
  · intro a
    rw [hflat]
    exact hshuffle.count_eq a
  · exact sliceBatches_mem_aux b shuffled.length shuffled (le_refl _)
  · exact sliceBatches_dropLast_aux b shuffled.length shuffled (le_refl _)

theorem batches_cover_each_example_once_witness :
    (sliceBatches 2 [3, 1, 5, 2, 4]).flatten = [3, 1, 5, 2, 4] ∧
    (sliceBatches 2 [3, 1, 5, 2, 4]).flatten.count 5 =
      ([1, 2, 3, 4, 5] : List Nat).count 5 := by
  have h := batches_cover_each_example_once
    ([1, 2, 3, 4, 5] : List Nat) [3, 1, 5, 2, 4] 2 (by decide) (by decide)
  exact ⟨h.1, h.2.1 5⟩

/-- C9: after each completed epoch the loop persists, in one atomic
model step, the post-epoch weights, the optimizer state and the
completed epoch number; so interrupting a run planned for the epochs
range(start, n) after exactly k completed epochs (the executed prefix
of the plan is range(start, start + k)) leaves a folder whose
checkpoint stores epoch start + k - 1, the weights after the k-th
epoch, and the matching optimizer state. -/
theorem checkpoint_after_each_epoch (step : Nat → TrainState → TrainState)
    (start n k : Nat) (s₀ : TrainState) (ck₀ : CheckpointFile) (fs₀ : ExpFolder)
    (hk : 0 < k) (hkn : k ≤ n) :
    (List.range' start n).take k = List.range' start k ∧
    runEpochs step (List.range' start k) s₀ ck₀ fs₀ =
      ((List.range' start k).foldl (fun t i => step i t) s₀,
       { vocabTokens := ck₀.vocabTokens, vocabChars := ck₀.vocabChars,
         training := some (start + k - 1,
           ((List.range' start k).foldl (fun t i => step i t) s₀).weights) },
       { checkpointFile := some
           { vocabTokens := ck₀.vocabTokens, vocabChars := ck₀.vocabChars,
             training := some (start + k - 1,
               ((List.range' start k).foldl (fun t i => step i t) s₀).weights) },
         optFile := some
           ((List.range' start k).foldl (fun t i => step i t) s₀).opt },
       k) := by
  refine ⟨range'_take start n k hkn, ?_⟩
  have h := runEpochs_spec step (List.range' start k) s₀ ck₀ fs₀
    (start + k - 1) (range'_getLast start hk)
  rw [h]
  simp

theorem checkpoint_after_each_epoch_witness :
    (List.range' 5 4).take 2 = List.range' 5 2 ∧
    runEpochs (fun e t => ⟨Int.ofNat e :: t.weights, t.opt⟩) (List.range' 5 2)
        ⟨[], [7]⟩ ⟨["v"], ["c"], none⟩ ⟨none, none⟩ =
      ((List.range' 5 2).foldl
         (fun t i => (fun e (t : TrainState) =>
            (⟨Int.ofNat e :: t.weights, t.opt⟩ : TrainState)) i t)
         (⟨[], [7]⟩ : TrainState),
       { vocabTokens := ["v"], vocabChars := ["c"],
         training := some (5 + 2 - 1,
           ((List.range' 5 2).foldl
             (fun t i => (fun e (t : TrainState) =>
                (⟨Int.ofNat e :: t.weights, t.opt⟩ : TrainState)) i t)
             (⟨[], [7]⟩ : TrainState)).weights) },
       { checkpointFile := some
           { vocabTokens := ["v"], vocabChars := ["c"],
             training := some (5 + 2 - 1,
               ((List.range' 5 2).foldl
                 (fun t i => (fun e (t : TrainState) =>
                    (⟨Int.ofNat e :: t.weights, t.opt⟩ : TrainState)) i t)
                 (⟨[], [7]⟩ : TrainState)).weights) },
         optFile := some
           ((List.range' 5 2).foldl
             (fun t i => (fun e (t : TrainState) =>
                (⟨Int.ofNat e :: t.weights, t.opt⟩ : TrainState)) i t)
             (⟨[], [7]⟩ : TrainState)).opt },
       2) :=
  checkpoint_after_each_epoch
    (fun e t => ⟨Int.ofNat e :: t.weights, t.opt⟩)
    5 4 2 ⟨[], [7]⟩ ⟨["v"], ["c"], none⟩ ⟨none, none⟩ (by decide) (by decide)

/-- C5: after a fresh run that completed the configured N epochs,
re-invoking main with the same configuration resumes at epoch N, the
epoch range range(N, N) is empty, zero training steps run, and the
returned model weights, optimizer state, vocabulary and folder are
exactly those at the end of epoch N (the re-tokenization against the
existing vocabulary is assumed to reproduce it, as the specification
requires of identical raw data). -/
theorem resume_roundtrip_noop (step : Nat → TrainState → TrainState)
    (tok build : Vocabs → Vocabs) (iw : Weights)
    (s₀ : TrainState) (ck₀ : CheckpointFile) (fs₀ : ExpFolder) (N : Nat)
    (hN : 0 < N)
    (htok : tok ⟨ck₀.vocabTokens, ck₀.vocabChars⟩ =
      ⟨ck₀.vocabTokens, ck₀.vocabChars⟩) :
    main_run false (runEpochs step (epochRange 0 N) s₀ ck₀ fs₀).2.2.1
        tok build iw step N =
      .ok { finalState := (runEpochs step (epochRange 0 N) s₀ ck₀ fs₀).1,
            vocabs := ⟨ck₀.vocabTokens, ck₀.vocabChars⟩,
            folder := (runEpochs step (epochRange 0 N) s₀ ck₀ fs₀).2.2.1,
            stepsRun := 0, startEpoch := N } := by
  obtain ⟨M, rfl⟩ : ∃ M, N = M + 1 := ⟨N - 1, by omega⟩
  have hlast : (epochRange 0 (M + 1)).getLast? = some M := by
    simp only [epochRange, Nat.sub_zero]
    simpa using range'_getLast 0 (Nat.succ_pos M)
  rw [runEpochs_spec step (epochRange 0 (M + 1)) s₀ ck₀ fs₀ M hlast]
  have hrange : epochRange (M + 1) (M + 1) = [] := by
    simp [epochRange]
  simp [main_run, try_to_resume, reload_state, from_checkpoint,
    get_optimizer, Optimizer.startState, htok, hrange, runEpochs_nil]

theorem resume_roundtrip_noop_witness :
    main_run false
        (runEpochs (fun e t => ⟨Int.ofNat e :: t.weights, t.opt⟩) (epochRange 0 3)
          ⟨[], [4]⟩ ⟨["v"], ["c"], none⟩ ⟨none, none⟩).2.2.1
        id id [] (fun e t => ⟨Int.ofNat e :: t.weights, t.opt⟩) 3 =
      .ok { finalState :=
              (runEpochs (fun e t => ⟨Int.ofNat e :: t.weights, t.opt⟩)
                (epochRange 0 3)
                ⟨[], [4]⟩ ⟨["v"], ["c"], none⟩ ⟨none, none⟩).1,
            vocabs := ⟨["v"], ["c"]⟩,
            folder :=
              (runEpochs (fun e t => ⟨Int.ofNat e :: t.weights, t.opt⟩)
                (epochRange 0 3)
                ⟨[], [4]⟩ ⟨["v"], ["c"], none⟩ ⟨none, none⟩).2.2.1,
            stepsRun := 0, startEpoch := 3 } :=
  resume_roundtrip_noop (fun e t => ⟨Int.ofNat e :: t.weights, t.opt⟩) id id []
    ⟨[], [4]⟩ ⟨["v"], ["c"], none⟩ ⟨none, none⟩ 3 (by decide) rfl

theorem vocab_stability_assertions_witness :
    ((∃ rs, reload_state ⟨["a", "b"], ["c"], some (1, [2])⟩ none id = .ok rs) ↔
      ((id (⟨["a", "b"], ["c"]⟩ : Vocabs)).tokens.length =
          (["a", "b"] : List String).length ∧
       (id (⟨["a", "b"], ["c"]⟩ : Vocabs)).chars.length =
          (["c"] : List String).length)) ∧
    (∃ rs, reload_state ⟨["a", "b"], ["c"], some (1, [2])⟩ none id = .ok rs) := by
  have h := vocab_stability_assertions
    ⟨["a", "b"], ["c"], some (1, [2])⟩ none id 1 [2] rfl
  exact ⟨h.1, h.2 (fun v => ⟨rfl, rfl⟩)⟩

/-- C7: embedding injection keeps the initial row of the reserved id 0,
gives every other row the text-sourced vector when the token is in the
pre-trained source and a freshly drawn statistical fallback vector
otherwise; and when every token of id other than 0 is in the source,
the resulting matrix rows are exactly the source vectors and the
generator comes back unchanged, so no fallback vector is drawn. -/
theorem embedding_injection_policy (rows : List (Nat × String × Vec))
    (pre : String → Option Vec) (stats : NormStats) (rng : Rng) :
    ((symbol_injection rows 0 pre stats rng).1.length = rows.length) ∧
    (∀ (i id : Nat) (tok : String) (row₀ : Vec),
       rows[i]? = some (id, tok, row₀) →
       (id = 0 →
         ((symbol_injection rows 0 pre stats rng).1)[i]? = some row₀) ∧
       (∀ v, id ≠ 0 → pre tok = some v →
         ((symbol_injection rows 0 pre stats rng).1)[i]? = some v) ∧
       (id ≠ 0 → pre tok = none →
         ∃ rng₂ : Rng,
           ((symbol_injection rows 0 pre stats rng).1)[i]? =
             some (drawNorm stats rng₂).1)) ∧
    ((∀ r ∈ rows, r.1 ≠ 0 → (pre r.2.1).isSome) →
       symbol_injection rows 0 pre stats rng =
         (rows.map (fun r => if r.1 = 0 then r.2.2 else (pre r.2.1).getD []),
          rng)) := by
  refine ⟨symbol_injection_length 0 pre stats rows rng, ?_, ?_⟩
  · intro i id tok row₀ h
    exact symbol_injection_get 0 pre stats rows rng i id tok row₀ h
  · intro hall
    exact symbol_injection_all_present 0 pre stats rows rng hall

theorem embedding_injection_policy_witness :
    ((symbol_injection [(0, "", ([9] : Vec)), (1, "hello", [0])] 0
       (fun t => if t = "hello" then some [1, 2] else none)
       ⟨[], []⟩ ⟨2, 0⟩).1.length = 2) ∧
    ((symbol_injection [(0, "", ([9] : Vec)), (1, "hello", [0])] 0
       (fun t => if t = "hello" then some [1, 2] else none)
       ⟨[], []⟩ ⟨2, 0⟩).1)[1]? = some [1, 2] ∧
    symbol_injection [(0, "", ([9] : Vec)), (1, "hello", [0])] 0
       (fun t => if t = "hello" then some [1, 2] else none)
       ⟨[], []⟩ ⟨2, 0⟩ =
      ([[9], [1, 2]], ⟨2, 0⟩) := by
  have h := embedding_injection_policy
    [(0, "", ([9] : Vec)), (1, "hello", [0])]
    (fun t => if t = "hello" then some [1, 2] else none) ⟨[], []⟩ ⟨2, 0⟩
  refine ⟨h.1, ?_, ?_⟩
  · exact (h.2.1 1 1 "hello" [0] rfl).2.1 [1, 2] (by decide) rfl
  · rw [h.2.2 (by decide)]
    rfl

/-- C8: the statistical fallback phase of init_state seeds its
generator with the constant 2, so its output is a function of the
statistics, the token rows and the source alone: two executions in
different ambient worlds produce identical (hence bit-identical)
fallback vectors, and the result is exactly the injection run from
np.random.RandomState(2). -/
theorem fallback_vectors_deterministic (w₁ w₂ : World)
    (rows : List (Nat × String × Vec)) (pre : String → Option Vec)
    (stats : NormStats) :
    init_state_injection w₁ rows pre stats =
      init_state_injection w₂ rows pre stats ∧
    init_state_injection w₁ rows pre stats =
      (symbol_injection rows 0 pre stats (np_RandomState 2)).1 :=
  ⟨rfl, rfl⟩

end MrcQa

namespace GloveModel

theorem assignRow_width (l : Nat) (row : Option Vec) (v : Vec)
    (h : assignRow l row = .ok v) : v.length = l := by
  cases row with
  | none =>
    simp [assignRow] at h
    subst h
    simp
  | some w =>
    simp only [assignRow] at h
    by_cases hw : w.length = l
    · rw [if_pos hw] at h
      cases h
      exact hw
    · rw [if_neg hw] at h
      cases h

theorem embedRows_width (clean : String → String) (g : GloveDict) (l : Nat) :
    ∀ (lst : List String) (m : List Vec),
      embedRows clean g l lst = .ok m → ∀ row ∈ m, row.length = l := by
  intro lst
  induction lst with
  | nil =>
    intro m h
    simp [embedRows] at h
    subst h
    simp
  | cons a as ih =>
    intro m h
    cases ha : embedRow clean g l a with
    | error e => simp [embedRows, ha] at h
    | ok v =>
      cases hrest : embedRows clean g l as with
      | error e => simp [embedRows, ha, hrest] at h
      | ok vs =>
        simp [embedRows, ha, hrest] at h
        subst h
        intro row hrow
        rcases List.mem_cons.mp hrow with hh | hh
        · subst hh
          cases hone : glove_embedding_one_string clean a g with
          | error e => simp [embedRow, hone] at ha
          | ok r =>
            refine assignRow_width l r _ ?_
            simpa [embedRow, hone] using ha
        · exact ih vs hrest row hh

/-- C10: when the key of the one-letter word a is absent from the
pretrained_glove dict, Glove.embedding raises KeyError for every input
list, the empty one included, because it reads the entry of that key to
determine the width before processing any list element; when the key is
present, every row of a successfully returned matrix has exactly the
width of that entry. -/
theorem glove_width_from_fixed_key (g : GloveDict) (clean : String → String) :
    (dictFind g "a" = none →
       ∀ lst, embedding clean lst g = .error "KeyError: a") ∧
    (∀ va, dictFind g "a" = some va →
       ∀ lst m, embedding clean lst g = .ok m →
         ∀ row ∈ m, row.length = va.length) := by
  constructor
  · intro h lst
    simp [embedding, h]
  · intro va h lst m hm
    rw [embedding, h] at hm
    exact embedRows_width clean g va.length lst m hm

theorem glove_width_from_fixed_key_witness :
    embedding id ([] : List String) [("b", [1])] = .error "KeyError: a" ∧
    embedding id ["hello"] [("b", [1])] = .error "KeyError: a" ∧
    ([1, 2] : Vec).length = ([1, 2] : Vec).length ∧
    (List.replicate 2 (0 : Int)).length = ([1, 2] : Vec).length := by
  have h₁ := glove_width_from_fixed_key [("b", [1])] id
  have h₂ := glove_width_from_fixed_key [("a", [1, 2])] id
  have hd : dictFind [("b", ([1] : Vec))] "a" = none := by decide
  have hd₂ : dictFind [("a", ([1, 2] : Vec))] "a" = some [1, 2] := by decide
  have hemb : embedding id ["a", ""] [("a", [1, 2])] =
      .ok [[1, 2], List.replicate 2 0] := by
    have hs₁ : pySplit "a" = ["a"] := by decide
    have hs₂ : pySplit "" = [] := by decide
    simp [embedding, hd₂, embedRows, embedRow, glove_embedding_one_string,
      hs₁, hs₂, sumVecs, assignRow, List.filterMap, dictFind, List.find?]
  refine ⟨h₁.1 hd [], h₁.1 hd ["hello"], ?_, ?_⟩
  · exact h₂.2 [1, 2] hd₂ ["a", ""] [[1, 2], List.replicate 2 0] hemb
      [1, 2] (by simp)
  · exact h₂.2 [1, 2] hd₂ ["a", ""] [[1, 2], List.replicate 2 0] hemb
      (List.replicate 2 0) (by simp)

end GloveModel
